import Mathlib

/-!
Shallow embedding of `avnotify.py` (an ALSA volume-notification script).

The program pipeline is: run `amixer set <args>`, parse its stdout into a
triple (is_microphone, volume_percent, is_muted), map that triple to a
notification title/icon/body, read a previously cached notification id
(ignored when stale), send the notification with that id as `replaces_id`,
and persist the freshly returned id with a timestamp.

Modelling conventions:
* Python strings are Lean `String`s (a list of characters); file contents
  are a single `String` containing newline characters.
* Timestamps are modelled at whole-second granularity as `Nat`; Python's
  `time.time()` returns a float, but every claim is about ordering and
  windows, which are unchanged by the granularity choice, and the printed
  timestamp round-trips exactly in both settings.
* External effects (the `amixer` process, `os.makedirs`, the file system,
  the D-Bus `Notify` call) are passed in as explicit inputs: the mixer
  contributes its stdout lines and exit status, `makedirs` its outcome,
  the cache file its optional content, and `Notify` the id it returns.
-/

/-- Decimal digit character for a single digit value (0–9). -/
def digitChar : ℕ → Char
  | 0 => '0'
  | 1 => '1'
  | 2 => '2'
  | 3 => '3'
  | 4 => '4'
  | 5 => '5'
  | 6 => '6'
  | 7 => '7'
  | 8 => '8'
  | _ => '9'

/-- Fuel-driven decimal printer: digits of `n`, most significant first.
Structural recursion on the fuel so that terms reduce in the kernel. -/
def toDigitsAux : ℕ → ℕ → List Char
  | 0, _ => []
  | fuel + 1, n => if n < 10 then [digitChar n] else toDigitsAux fuel (n / 10) ++ [digitChar (n % 10)]

/-- Decimal digit list of a natural number (models Python `str` on a
nonnegative int). -/
def toDigits (n : ℕ) : List Char := toDigitsAux (n + 1) n

/-- Numeric value of a decimal digit list (models Python `int`/`float`
evaluation of a digit string). -/
def digitsToNat (l : List Char) : ℕ := l.foldl (fun a c => a * 10 + (c.toNat - 48)) 0

/-- Decimal string of a natural number; the model's `str(n)`. -/
def natToString (n : ℕ) : String := ⟨toDigits n⟩

/-- Whitespace predicate of Python `str.split()` / `str.strip()`
(space, tab, newline, carriage return, vertical tab, form feed). -/
def pyIsSpace (c : Char) : Bool :=
  c = ' ' || c = '\t' || c = '\n' || c = '\r' || c = '\x0b' || c = '\x0c'

/-- Whitespace-separated words of a character list, empty words dropped;
the accumulator holds the current word reversed. Models Python
`str.split()` with no argument. -/
def wordsAux : List Char → List Char → List (List Char)
  | [], acc => if acc.isEmpty then [] else [acc.reverse]
  | c :: rest, acc =>
    if pyIsSpace c then
      if acc.isEmpty then wordsAux rest [] else acc.reverse :: wordsAux rest []
    else
      wordsAux rest (c :: acc)

/-- Python `line.split()`: whitespace-separated tokens of a string. -/
def pySplit (s : String) : List String := (wordsAux s.data []).map String.mk

/-- Python `s.strip()` on a character list: drop whitespace from both ends. -/
def pyStripL (l : List Char) : List Char :=
  (((l.dropWhile pyIsSpace).reverse).dropWhile pyIsSpace).reverse

/-- Python `s.strip()` on a string. -/
def pyStrip (s : String) : String := ⟨pyStripL s.data⟩

/-- Split file content at the first newline, the way `f.readline()`
followed by `f.read()` does: the first component is the first line
including its terminating newline (or the whole content when it has no
newline), the second is everything after it. -/
def splitFirstLineL (l : List Char) : List Char × List Char :=
  match l.dropWhile (fun c => !(c = '\n')) with
  | [] => (l.takeWhile (fun c => !(c = '\n')), [])
  | _ :: rest => (l.takeWhile (fun c => !(c = '\n')) ++ ['\n'], rest)

/-- String version of `splitFirstLineL`. -/
def splitFirstLine (s : String) : String × String :=
  ((splitFirstLineL s.data).1.asString, (splitFirstLineL s.data).2.asString)

/-- Does `pre` occur at the head of `l`? -/
def listStartsWith : List Char → List Char → Bool
  | [], _ => true
  | _ :: _, [] => false
  | p :: ps, c :: cs => p = c && listStartsWith ps cs

/-- Regex fragment `\[(\d+)%\]` anchored at the head of the input: a
bracket, a nonempty greedy digit run, then `%]`. Returns the digit run and
the remainder after `%]`. (The greedy `\d+` cannot backtrack usefully
here: shortening the run leaves a digit where `%` is required.) -/
def matchPct (l : List Char) : Option (List Char × List Char) :=
  match l with
  | '[' :: rest =>
    let ds := rest.takeWhile Char.isDigit
    let after := rest.dropWhile Char.isDigit
    if ds.isEmpty then none
    else
      match after with
      | '%' :: ']' :: rest2 => some (ds, rest2)
      | _ => none
  | _ => none

/-- Leftmost occurrence of `\[(on|off)\]`: scans forward and reports
`true` for an `[on]` marker, `false` for `[off]`. Models the lazy
`.+?\[(on|off)\]` continuation: the nearest on/off bracket wins. -/
def findOnOff : List Char → Option Bool
  | [] => none
  | l@(_ :: rest) =>
    if listStartsWith ['[', 'o', 'n', ']'] l then some true
    else if listStartsWith ['[', 'o', 'f', 'f', ']'] l then some false
    else findOnOff rest

/-- Attempt to match the full pattern `\[(\d+)%\].+?\[(on|off)\]` at the
head of the input; the `.+?` demands at least one character between `%]`
and the on/off bracket. Returns (volume, muted). -/
def matchVolAt (l : List Char) : Option (ℕ × Bool) :=
  match matchPct l with
  | none => none
  | some (ds, rest2) =>
    match rest2 with
    | [] => none
    | _ :: tl =>
      match findOnOff tl with
      | none => none
      | some isOn => some (digitsToNat ds, !isOn)

/-- Python `pattern.search(line)` for `\[(\d+)%\].+?\[(on|off)\]`:
try every start position left to right and return the leftmost match's
(volume, muted) pair. -/
def searchVol : List Char → Option (ℕ × Bool)
  | [] => none
  | l@(_ :: rest) =>
    match matchVolAt l with
    | some r => some r
    | none => searchVol rest

/-- Running parser state of the loop in `adjust_volume_alsa`
(`level, muted, mic = 0, False, False`). -/
structure MixerState where
  mic : Bool
  level : ℕ
  muted : Bool
deriving DecidableEq, Repr

/-- One iteration of the stdout loop in `adjust_volume_alsa`: set `mic`
when the whitespace tokens contain `cvolume`, and overwrite
`(level, muted)` when the percentage pattern matches. -/
def parseLine (st : MixerState) (line : String) : MixerState :=
  let st1 := if (pySplit line).contains "cvolume" then { st with mic := true } else st
  match searchVol line.data with
  | some r => { st1 with level := r.1, muted := r.2 }
  | none => st1

/-- Full stdout scan of `adjust_volume_alsa` starting from the initial
state `(mic, level, muted) = (false, 0, false)`. -/
def parseOutput (lines : List String) : MixerState :=
  lines.foldl parseLine ⟨false, 0, false⟩

/-- Error value raised by `adjust_volume_alsa` on a non-zero exit status:
`os.error(errno.EINVAL, os.strerror(errno.EINVAL), args)`. The `args`
field carries the caller-supplied mixer argument list. -/
structure OSErr where
  errno : ℕ
  strerror : String
  args : List String
deriving DecidableEq, Repr

/-- Numeric value of `errno.EINVAL`. -/
def EINVAL : ℕ := 22

/-- Numeric value of `errno.EEXIST`. -/
def EEXIST : ℕ := 17

/-- Embedding of `adjust_volume_alsa(args)`: the external `amixer set`
process is supplied as its stdout lines and exit status. The stdout loop
runs first; then a non-zero exit raises
`os.error(EINVAL, strerror, args)`, and otherwise the parsed triple
`(mic, level, muted)` is returned. -/
def adjust_volume_alsa (args : List String) (stdoutLines : List String) (exitStatus : ℤ) :
    Except OSErr (Bool × ℕ × Bool) :=
  let st := parseOutput stdoutLines
  if exitStatus ≠ 0 then
    Except.error ⟨EINVAL, "Invalid argument", args⟩
  else
    Except.ok (st.mic, st.level, st.muted)

/-- Embedding of `ensure_path`: `os.makedirs` is supplied as its outcome
(`none` for success, `some errno` for an `os.error`). An `EEXIST` failure
is swallowed; every other failure is re-raised. -/
def ensure_path (makedirsOutcome : Option ℕ) : Except ℕ Unit :=
  match makedirsOutcome with
  | none => Except.ok ()
  | some e => if e ≠ EEXIST then Except.error e else Except.ok ()

/-- Content written by `xdg_save_cache`: the timestamp on the first line
and the value on the second, each `print` appending a newline. -/
def cacheContent (now : ℕ) (value : String) : String :=
  natToString now ++ "\n" ++ value ++ "\n"

/-- Embedding of `xdg_save_cache(app_name, key, value)`: ensure the parent
directory exists (propagating any non-EEXIST `makedirs` error), then
write the timestamp line followed by the value line. Returns the file
content written. -/
def xdg_save_cache (makedirsOutcome : Option ℕ) (now : ℕ) (value : String) :
    Except ℕ String :=
  match ensure_path makedirsOutcome with
  | Except.error e => Except.error e
  | Except.ok _ => Except.ok (cacheContent now value)

/-- Embedding of `as_float_default(s)` at whole-second granularity:
parse an unsigned decimal numeral, or return the default. Python's
`float()` also accepts signs, fractions and exponents, which this program
never writes; a fractional first line is treated as unparsable here. -/
def parseTimestamp (s : String) : Option ℕ :=
  if !s.data.isEmpty && s.data.all Char.isDigit then some (digitsToNat s.data) else none

/-- Embedding of `as_float_default(s, default)`. -/
def as_float_default (s : String) (default : ℕ) : ℕ :=
  (parseTimestamp s).getD default

/-- Embedding of `xdg_read_cache(app_name, key, timeout)`: the file is
supplied as `none` when opening raises `IOError` (absent or unreadable)
and `some content` otherwise. The first line is stripped and parsed as
the timestamp; when `timeout` is truthy (not `None` and not `0`) and the
entry is older than `timeout` seconds, `None` is returned, else the rest
of the file. -/
def xdg_read_cache (file : Option String) (timeout : Option ℕ) (now : ℕ) : Option String :=
  match file with
  | none => none
  | some content =>
    let p := splitFirstLine content
    let tstamp := as_float_default (pyStrip p.1) 0
    match timeout with
    | none => some p.2
    | some k => if k ≠ 0 ∧ tstamp + k < now then none else some p.2

/-- Python `x or default` for the optional cache read result: `None` and
the empty string are falsy and give the default. -/
def pyOrDefault (o : Option String) (default : String) : String :=
  match o with
  | none => default
  | some s => if s = "" then default else s

/-- Embedding of `int(s)` restricted to the unsigned decimal numerals this
program round-trips (`int()` also accepts signs and surrounding
whitespace; `main` strips before converting). `none` models the
`ValueError` on a non-numeral. -/
def pyInt (s : String) : Option ℕ :=
  if !s.data.isEmpty && s.data.all Char.isDigit then some (digitsToNat s.data) else none

/-- Constant `ICON_SUFFIXES` from the source. -/
def ICON_SUFFIXES : List String := ["muted", "low", "medium", "high"]

/-- Constant `CACHE_TIMEOUT` from the source (seconds). -/
def CACHE_TIMEOUT : ℕ := 10

/-- Icon-suffix index from `main`: `1 + min(100, level) // 34`. -/
def level_index (level : ℕ) : ℕ := 1 + min 100 level / 34

/-- Icon suffix chosen by `main`:
`ICON_SUFFIXES[0] if muted else ICON_SUFFIXES[level_index]`. -/
def iconSuffix (muted : Bool) (level : ℕ) : String :=
  if muted then ICON_SUFFIXES.getD 0 "" else ICON_SUFFIXES.getD (level_index level) ""

/-- Body text from `main`: `"Volume at %d%%%s" % (level, ...)`. -/
def bodyText (level : ℕ) (muted : Bool) : String :=
  "Volume at " ++ natToString level ++ "%" ++ (if muted then " (muted)" else "")

/-- Observable outcome of one successful run of `main`: the arguments of
the `Notify` call and the cache content written afterwards. -/
structure RunResult where
  replaces_id : ℕ
  title : String
  icon : String
  text : String
  hintValue : ℕ
  newCache : String
deriving DecidableEq, Repr

/-- Failure of a run of `main`: the mixer command failed, or the cached
value was not a valid integer (the `int(old_id.strip())` `ValueError`). -/
inductive RunError where
  | mixer (e : OSErr)
  | badCachedId (s : String)
deriving DecidableEq, Repr

/-- Embedding of `main(args)`. External inputs: the mixer stdout and exit
status, the cache file content (if readable), the current time, and the
id returned by the `Notify` call. On success the result records the
`replaces_id` sent, the presentation strings, the `value` hint, and the
cache content persisted. -/
def runMain (args stdoutLines : List String) (exitStatus : ℤ) (cacheFile : Option String)
    (now : ℕ) (notifyReturnedId : ℕ) : Except RunError RunResult :=
  match adjust_volume_alsa args stdoutLines exitStatus with
  | Except.error e => Except.error (RunError.mixer e)
  | Except.ok (mic, level, muted) =>
    let base := if mic then "microphone-sensitivity" else "audio-volume"
    let suffix := iconSuffix muted level
    let title := if mic then "Microphone" else "Playback"
    let icon := base ++ "-" ++ suffix
    let text := bodyText level muted
    let oldStr := pyOrDefault (xdg_read_cache cacheFile (some CACHE_TIMEOUT) now) "0"
    match pyInt (pyStrip oldStr) with
    | none => Except.error (RunError.badCachedId oldStr)
    | some oldId =>
      Except.ok ⟨oldId, title, icon, text, level, cacheContent now (natToString notifyReturnedId)⟩

/-! ### Digit and decimal-numeral lemmas -/

lemma digitChar_isDigit {d : ℕ} (h : d < 10) : (digitChar d).isDigit = true := by
  interval_cases d <;> decide

lemma digitChar_toNat {d : ℕ} (h : d < 10) : (digitChar d).toNat - 48 = d := by
  interval_cases d <;> decide

lemma toDigitsAux_mem_isDigit :
    ∀ (fuel n : ℕ) (c : Char), c ∈ toDigitsAux fuel n → c.isDigit = true := by
  intro fuel
  induction fuel with
  | zero => intro n c hc; simp [toDigitsAux] at hc
  | succ fuel ih =>
    intro n c hc
    by_cases h : n < 10
    · simp [toDigitsAux, h] at hc
      subst hc
      exact digitChar_isDigit h
    · simp [toDigitsAux, h] at hc
      rcases hc with hc | hc
      · exact ih _ _ hc
      · subst hc
        exact digitChar_isDigit (Nat.mod_lt _ (by omega))

lemma toDigits_mem_isDigit {n : ℕ} {c : Char} (hc : c ∈ toDigits n) : c.isDigit = true :=
  toDigitsAux_mem_isDigit _ _ _ hc

lemma toDigitsAux_ne_nil (fuel n : ℕ) : toDigitsAux (fuel + 1) n ≠ [] := by
  by_cases h : n < 10 <;> simp [toDigitsAux, h]

lemma toDigits_ne_nil (n : ℕ) : toDigits n ≠ [] := toDigitsAux_ne_nil n n

lemma digitsToNat_append_digit (l : List Char) (c : Char) :
    digitsToNat (l ++ [c]) = digitsToNat l * 10 + (c.toNat - 48) := by
  simp [digitsToNat, List.foldl_append]

lemma digitsToNat_toDigitsAux :
    ∀ (fuel n : ℕ), n < fuel → digitsToNat (toDigitsAux fuel n) = n := by
  intro fuel
  induction fuel with
  | zero => intro n h; omega
  | succ fuel ih =>
    intro n h
    by_cases h10 : n < 10
    · simp [toDigitsAux, h10, digitsToNat]
      exact digitChar_toNat h10
    · have hdiv : n / 10 < fuel := by
        have h1 : n / 10 < n := Nat.div_lt_self (by omega) (by omega)
        omega
      simp only [toDigitsAux, if_neg h10]
      rw [digitsToNat_append_digit, ih _ hdiv, digitChar_toNat (Nat.mod_lt _ (by omega))]
      omega

lemma digitsToNat_toDigits (n : ℕ) : digitsToNat (toDigits n) = n :=
  digitsToNat_toDigitsAux _ _ (Nat.lt_succ_self n)

lemma toDigits_injective : Function.Injective toDigits := by
  intro a b h
  have := digitsToNat_toDigits a
  rw [h, digitsToNat_toDigits] at this
  omega

lemma string_eq_of_data_eq {a b : String} (h : a.data = b.data) : a = b := by
  cases a; cases b; exact congrArg String.mk h

lemma natToString_data (n : ℕ) : (natToString n).data = toDigits n := rfl

lemma isDigit_not_space {c : Char} (h : c.isDigit = true) : pyIsSpace c = false := by
  revert h
  simp only [Char.isDigit, pyIsSpace]
  intro h
  rcases Bool.and_eq_true _ _ |>.mp h with ⟨h1, h2⟩
  have hle : 48 ≤ c.toNat := by
    simpa [Char.le_def] using decide_eq_true_eq.mp h1
  simp only [Bool.or_eq_false_iff]
  refine ⟨⟨⟨⟨⟨?_, ?_⟩, ?_⟩, ?_⟩, ?_⟩, ?_⟩ <;>
    · simp only [decide_eq_false_iff_not]
      intro hc
      subst hc
      simp at hle

lemma isDigit_ne_newline {c : Char} (h : c.isDigit = true) : ¬ (c = '\n') := by
  intro hc
  subst hc
  simp [Char.isDigit] at h

/-! ### String-surgery lemmas -/

lemma string_data_append (s t : String) : (s ++ t).data = s.data ++ t.data := by
  cases s; cases t; rfl

lemma takeWhile_until_newline {ds r : List Char} (h : ∀ c ∈ ds, ¬(c = '\n')) :
    (ds ++ '\n' :: r).takeWhile (fun c => !(c = '\n')) = ds := by
  induction ds with
  | nil => simp
  | cons d tl ih =>
    have hd : ¬(d = '\n') := h d (by simp)
    simp only [List.cons_append, List.takeWhile_cons, hd, decide_False, Bool.not_false,
      if_true, List.cons.injEq, true_and]
    exact ih fun c hc => h c (by simp [hc])

lemma dropWhile_until_newline {ds r : List Char} (h : ∀ c ∈ ds, ¬(c = '\n')) :
    (ds ++ '\n' :: r).dropWhile (fun c => !(c = '\n')) = '\n' :: r := by
  induction ds with
  | nil => simp
  | cons d tl ih =>
    have hd : ¬(d = '\n') := h d (by simp)
    simp only [List.cons_append, List.dropWhile_cons, hd, decide_False, Bool.not_false, if_true]
    exact ih fun c hc => h c (by simp [hc])

lemma splitFirstLineL_eq {ds r : List Char} (h : ∀ c ∈ ds, ¬(c = '\n')) :
    splitFirstLineL (ds ++ '\n' :: r) = (ds ++ ['\n'], r) := by
  unfold splitFirstLineL
  rw [dropWhile_until_newline h, takeWhile_until_newline h]

lemma dropWhile_space_of_digits {l : List Char} (h : ∀ c ∈ l, c.isDigit = true) :
    l.dropWhile pyIsSpace = l := by
  cases l with
  | nil => rfl
  | cons c cs =>
    rw [List.dropWhile_cons, isDigit_not_space (h c (by simp))]
    simp

lemma pyStripL_digits_newline {ds : List Char} (h : ∀ c ∈ ds, c.isDigit = true) :
    pyStripL (ds ++ ['\n']) = ds := by
  cases ds with
  | nil => rfl
  | cons d tl =>
    unfold pyStripL
    have hd : pyIsSpace d = false := isDigit_not_space (h d (by simp))
    rw [List.cons_append, List.dropWhile_cons, hd]
    simp only [Bool.false_eq_true, if_false]
    rw [List.reverse_cons, List.reverse_append]
    simp only [List.reverse_cons, List.reverse_nil, List.nil_append, List.singleton_append,
      List.cons_append]
    rw [List.dropWhile_cons]
    simp only [show pyIsSpace '\n' = true from rfl, if_true]
    rw [dropWhile_space_of_digits (l := tl.reverse ++ [d]) ?_]
    · rw [List.reverse_append, List.reverse_reverse]
      rfl
    · intro c hc
      rcases List.mem_append.mp hc with hc | hc
      · exact h c (by simp [List.mem_reverse.mp hc])
      · simp at hc
        subst hc
        exact h c (by simp)

lemma toDigits_all_digits (n : ℕ) : (toDigits n).all Char.isDigit = true :=
  List.all_eq_true.mpr fun _ hc => toDigits_mem_isDigit hc

lemma toDigits_isEmpty_false (t : ℕ) : (toDigits t).isEmpty = false := by
  cases hds : toDigits t with
  | nil => exact absurd hds (toDigits_ne_nil t)
  | cons a l => rfl

lemma parseTimestamp_natToString (t : ℕ) : parseTimestamp (natToString t) = some t := by
  unfold parseTimestamp
  rw [natToString_data, toDigits_isEmpty_false, toDigits_all_digits]
  simp [digitsToNat_toDigits]

lemma pyInt_natToString (t : ℕ) : pyInt (natToString t) = some t := by
  unfold pyInt
  rw [natToString_data, toDigits_isEmpty_false, toDigits_all_digits]
  simp [digitsToNat_toDigits]

lemma natToString_injective : Function.Injective natToString := by
  intro a b h
  exact toDigits_injective (congrArg String.data h)

lemma cacheContent_data (t : ℕ) (v : String) :
    (cacheContent t v).data = toDigits t ++ '\n' :: (v.data ++ ['\n']) := by
  unfold cacheContent
  rw [string_data_append, string_data_append, string_data_append, natToString_data]
  simp

lemma splitFirstLine_cacheContent (t : ℕ) (v : String) :
    splitFirstLine (cacheContent t v) = ((toDigits t ++ ['\n']).asString, (v.data ++ ['\n']).asString) := by
  unfold splitFirstLine
  rw [cacheContent_data,
    splitFirstLineL_eq fun c hc => isDigit_ne_newline (toDigits_mem_isDigit hc)]

lemma pyStrip_digits_newline (t : ℕ) : pyStrip (toDigits t ++ ['\n']).asString = natToString t := by
  unfold pyStrip
  apply string_eq_of_data_eq
  show pyStripL (toDigits t ++ ['\n']) = _
  rw [pyStripL_digits_newline fun c hc => toDigits_mem_isDigit hc, natToString_data]

lemma asString_append_newline (v : String) : (v.data ++ ['\n']).asString = v ++ "\n" := by
  apply string_eq_of_data_eq
  rw [string_data_append]
  rfl

/-- Evaluation of a cache read on a file freshly produced by a cache
write: with `timeout=None` the stored value (plus the trailing newline
`print` added) comes back; with a truthy timeout the entry is dropped
exactly when it is stale. -/
lemma xdg_read_cacheContent (t : ℕ) (v : String) (timeout : Option ℕ) (now : ℕ) :
    xdg_read_cache (some (cacheContent t v)) timeout now =
      match timeout with
      | none => some (v ++ "\n")
      | some k => if k ≠ 0 ∧ t + k < now then none else some (v ++ "\n") := by
  simp only [xdg_read_cache]
  rw [splitFirstLine_cacheContent]
  simp only [pyStrip_digits_newline, asString_append_newline]
  unfold as_float_default
  rw [parseTimestamp_natToString]
  rfl

/-! ### Parser-loop lemmas -/

lemma parseLine_mic (st : MixerState) (l : String) :
    (parseLine st l).mic = (st.mic || decide ("cvolume" ∈ pySplit l)) := by
  unfold parseLine
  cases h : searchVol l.data <;>
    by_cases hc : "cvolume" ∈ pySplit l <;>
      simp [h, hc]

lemma parseLine_level_muted (st : MixerState) (l : String) :
    ((parseLine st l).level, (parseLine st l).muted)
      = (searchVol l.data).getD (st.level, st.muted) := by
  unfold parseLine
  cases h : searchVol l.data <;>
    by_cases hc : "cvolume" ∈ pySplit l <;>
      simp [h, hc]

lemma getLast?_cons_getD {α : Type} (a d : α) (xs : List α) :
    ((a :: xs).getLast?).getD d = (xs.getLast?).getD a := by
  cases xs with
  | nil => rfl
  | cons b bs =>
    rw [List.getLast?_cons_cons]
    obtain ⟨y, hy⟩ : ∃ y, (b :: bs).getLast? = some y := by
      cases hh : (b :: bs).getLast? with
      | none => simp [List.getLast?_eq_none_iff] at hh
      | some y => exact ⟨y, rfl⟩
    rw [hy]
    rfl

lemma foldl_parseLine_mic (ls : List String) :
    ∀ st : MixerState,
      (ls.foldl parseLine st).mic
        = (st.mic || ls.any fun l => decide ("cvolume" ∈ pySplit l)) := by
  induction ls with
  | nil => intro st; simp
  | cons l ls ih =>
    intro st
    simp only [List.foldl_cons, List.any_cons]
    rw [ih, parseLine_mic]
    cases st.mic <;> simp [Bool.or_assoc]

lemma foldl_parseLine_level_muted (ls : List String) :
    ∀ st : MixerState,
      ((ls.foldl parseLine st).level, (ls.foldl parseLine st).muted)
        = ((ls.filterMap fun l => searchVol l.data).getLast?).getD (st.level, st.muted) := by
  induction ls with
  | nil => intro st; simp
  | cons l ls ih =>
    intro st
    simp only [List.foldl_cons, List.filterMap_cons]
    have hpl := parseLine_level_muted st l
    cases h : searchVol l.data with
    | none =>
      rw [h] at hpl
      simp only [Option.getD_none] at hpl
      rw [ih (parseLine st l), hpl]
    | some r =>
      rw [h] at hpl
      simp only [Option.getD_some] at hpl
      rw [ih (parseLine st l), hpl]
      show (List.filterMap (fun l => searchVol l.data) ls).getLast?.getD r
        = ((r :: List.filterMap (fun l => searchVol l.data) ls).getLast?).getD (st.level, st.muted)
      rw [getLast?_cons_getD]

/-! ### Lemmas about a successful run of `main` -/

lemma runMain_replaces_id (args lines : List String) (cache : Option String)
    (now nid oid : ℕ)
    (h : pyInt (pyStrip (pyOrDefault (xdg_read_cache cache (some CACHE_TIMEOUT) now) "0"))
      = some oid) :
    ∃ r : RunResult, runMain args lines 0 cache now nid = Except.ok r
      ∧ r.replaces_id = oid ∧ r.newCache = cacheContent now (natToString nid) := by
  unfold runMain adjust_volume_alsa
  simp only [ne_eq, not_true_eq_false, if_false, reduceIte]
  rw [h]
  exact ⟨_, rfl, rfl, rfl⟩

lemma runMain_ok_newCache (args lines : List String) (ec : ℤ) (cache : Option String)
    (now nid : ℕ) (r : RunResult)
    (h : runMain args lines ec cache now nid = Except.ok r) :
    r.newCache = cacheContent now (natToString nid) := by
  unfold runMain adjust_volume_alsa at h
  by_cases hec : ec = 0
  · subst hec
    simp only [ne_eq, not_true_eq_false, if_false, reduceIte] at h
    cases hpi : pyInt (pyStrip (pyOrDefault (xdg_read_cache cache (some CACHE_TIMEOUT) now) "0")) with
    | none => rw [hpi] at h; exact absurd h (by simp)
    | some oid =>
      rw [hpi] at h
      have := Except.ok.inj h
      rw [← this]
  · simp only [ne_eq, hec, not_false_eq_true, if_true, reduceIte] at h
    exact absurd h (by simp)

/-! ### Claim theorems -/

/-- C1: for every mixer-command output, the parser's resulting volume and
mute flag equal those of the last output line matching the
percentage/on-off pattern (later matching lines overwrite earlier ones),
and when no line matches, volume is 0 and muted is false. -/
theorem amixer_parse_last_match_wins (lines : List String) :
    ((parseOutput lines).level, (parseOutput lines).muted)
      = ((lines.filterMap fun l => searchVol l.data).getLast?).getD (0, false) :=
  foldl_parseLine_level_muted lines ⟨false, 0, false⟩

/-- C4: the parsed channel kind is Capture (`mic = true`) if and only if
at least one output line's whitespace-token set contains the literal
token `cvolume`, wherever that line occurs; when the token never
appears, the channel kind stays Playback (`mic = false`). -/
theorem capture_iff_cvolume_token (lines : List String) :
    (parseOutput lines).mic = true ↔ ∃ l ∈ lines, "cvolume" ∈ pySplit l := by
  unfold parseOutput
  rw [foldl_parseLine_mic]
  simp

/-- Witness for C4 at a concrete output containing the token. -/
theorem capture_iff_cvolume_token_witness :
    (parseOutput ["Capabilities: cvolume cswitch"]).mic = true :=
  (capture_iff_cvolume_token ["Capabilities: cvolume cswitch"]).mpr
    ⟨"Capabilities: cvolume cswitch", by simp, by decide⟩

/-- C7 counterexample: the percentage pattern accepts any digit run, so a
line reporting 150% yields `volume_percent = 150`, outside `[0, 100]`. -/
theorem volume_percent_counterexample :
    (parseOutput ["Front Left: Playback [150%] x [on]"]).level = 150
      ∧ ¬ ((parseOutput ["Front Left: Playback [150%] x [on]"]).level ≤ 100) := by
  constructor
  · decide
  · decide

/-- C7 amended: the parsed volume is a natural number and lies in
`[0, 100]` whenever every percentage matched in the output is at most
100 (the mixer can report gains above 100%, which the parser passes
through unclamped). -/
theorem volume_percent_le_100_of_bounded_matches (lines : List String)
    (h : ∀ r ∈ lines.filterMap fun l => searchVol l.data, r.1 ≤ 100) :
    (parseOutput lines).level ≤ 100 := by
  have key := foldl_parseLine_level_muted lines ⟨false, 0, false⟩
  have hl : (parseOutput lines).level
      = (((lines.filterMap fun l => searchVol l.data).getLast?).getD (0, false)).1 :=
    congrArg Prod.fst key
  rw [hl]
  cases hlast : (lines.filterMap fun l => searchVol l.data).getLast? with
  | none => simp
  | some r => simpa using h r (List.mem_of_getLast?_eq_some hlast)

/-- Witness for the amended C7 on an output whose matches stay in range. -/
theorem volume_percent_le_100_of_bounded_matches_witness :
    (parseOutput ["Mono: Playback [55%] x [off]"]).level ≤ 100 :=
  volume_percent_le_100_of_bounded_matches ["Mono: Playback [55%] x [off]"] (by decide)

/-- C5: for volumes in `[0, 100]`, the icon suffix is `muted` whenever
the mute flag is set, and otherwise `low` on `[0, 33]`, `medium` on
`[34, 67]` and `high` on `[68, 100]` (so exactly 100 resolves to
`high`). -/
theorem icon_suffix_table (level : ℕ) (h : level ≤ 100) :
    iconSuffix true level = "muted"
      ∧ (level ≤ 33 → iconSuffix false level = "low")
      ∧ (34 ≤ level → level ≤ 67 → iconSuffix false level = "medium")
      ∧ (68 ≤ level → iconSuffix false level = "high") := by
  have key : ∀ n : ℕ, n ≤ 100 →
      (iconSuffix true n = "muted"
        ∧ (n ≤ 33 → iconSuffix false n = "low")
        ∧ (34 ≤ n → n ≤ 67 → iconSuffix false n = "medium")
        ∧ (68 ≤ n → iconSuffix false n = "high")) := by decide
  exact key level h

/-- Witness for C5 at volume 100: muted overrides, and unmuted 100 maps
to `high`. -/
theorem icon_suffix_table_witness :
    iconSuffix true 100 = "muted" ∧ iconSuffix false 100 = "high" :=
  ⟨(icon_suffix_table 100 (by decide)).1,
   (icon_suffix_table 100 (by decide)).2.2.2 (by decide)⟩

/-- C9: the mixer invoker fails exactly on a non-zero exit status, the
raised error carries the caller-supplied argument list, and a zero exit
status returns the parsed state. -/
theorem mixer_error_iff_nonzero_exit (args stdoutLines : List String) (exitStatus : ℤ) :
    (exitStatus ≠ 0 →
        adjust_volume_alsa args stdoutLines exitStatus
          = Except.error ⟨EINVAL, "Invalid argument", args⟩)
      ∧ (exitStatus = 0 →
        adjust_volume_alsa args stdoutLines exitStatus
          = Except.ok ((parseOutput stdoutLines).mic, (parseOutput stdoutLines).level,
              (parseOutput stdoutLines).muted)) := by
  unfold adjust_volume_alsa
  constructor
  · intro h
    simp [h]
  · intro h
    simp [h]

/-- Witness for C9: exit status 1 yields the error carrying the
arguments; exit status 0 yields the parsed state. -/
theorem mixer_error_iff_nonzero_exit_witness :
    adjust_volume_alsa ["Master", "5%+"] [] 1
        = Except.error ⟨EINVAL, "Invalid argument", ["Master", "5%+"]⟩
      ∧ adjust_volume_alsa ["Master", "5%+"] [] 0 = Except.ok (false, 0, false) :=
  ⟨(mixer_error_iff_nonzero_exit ["Master", "5%+"] [] 1).1 (by decide),
   (mixer_error_iff_nonzero_exit ["Master", "5%+"] [] 0).2 rfl⟩

/-- C10: for every parsed level — also those above 100 — the icon-suffix
index `1 + min(100, level) // 34` is within the bounds of the four-entry
suffix table, while the body text reports the unclamped level (the level
is recoverable from the body, so distinct levels give distinct bodies). -/
theorem icon_index_bounds_and_body_unclamped (level : ℕ) (muted : Bool) :
    level_index level < ICON_SUFFIXES.length
      ∧ ∀ level2 : ℕ, bodyText level muted = bodyText level2 muted → level = level2 := by
  constructor
  · show 1 + min 100 level / 34 < 4
    have h1 : min 100 level ≤ 100 := min_le_left _ _
    have h2 : min 100 level / 34 ≤ 100 / 34 := Nat.div_le_div_right h1
    omega
  · intro level2 hb
    have hd := congrArg String.data hb
    unfold bodyText at hd
    simp only [string_data_append, natToString_data, List.append_assoc] at hd
    exact toDigits_injective (List.append_cancel_right (List.append_cancel_left hd))

/-- Witness for C10 at the out-of-range level 250. -/
theorem icon_index_bounds_and_body_unclamped_witness :
    level_index 250 < ICON_SUFFIXES.length ∧ (250 : ℕ) = 250 :=
  ⟨(icon_index_bounds_and_body_unclamped 250 false).1,
   (icon_index_bounds_and_body_unclamped 250 false).2 250 rfl⟩

/-- C2 counterexample: the raw read with `timeout=None` returns the
stored value with the trailing newline `print` appended (`"7\n"`, not
`"7"`); and with `timeout=0` — falsy in Python — the staleness test is
skipped, so a timeout strictly smaller than the elapsed time still
returns the value instead of the not-found result. -/
theorem cache_roundtrip_counterexample :
    xdg_read_cache (some (cacheContent 5 "7")) none 50 ≠ some "7"
      ∧ ((0 : ℕ) < 9 - 5 ∧ xdg_read_cache (some (cacheContent 5 "7")) (some 0) 9 ≠ none) := by
  refine ⟨by decide, by decide, by decide⟩

/-- C2 amended: writing `(t, v)` and reading with `timeout=None` returns
`v` followed by the trailing newline the writer appended (the caller
strips it); and reading with any nonzero timeout strictly smaller than
`now - t` returns the not-found result `none`. -/
theorem cache_roundtrip_amended (t : ℕ) (v : String) (now k : ℕ) :
    xdg_read_cache (some (cacheContent t v)) none now = some (v ++ "\n")
      ∧ (k ≠ 0 → k < now - t →
          xdg_read_cache (some (cacheContent t v)) (some k) now = none) := by
  constructor
  · rw [xdg_read_cacheContent]
  · intro hk hst
    rw [xdg_read_cacheContent]
    have hlt : t + k < now := by omega
    simp [hk, hlt]

/-- Witness for the amended C2 at `t = 1`, `v = "9"`, `now = 20`,
`k = 5`. -/
theorem cache_roundtrip_amended_witness :
    xdg_read_cache (some (cacheContent 1 "9")) none 20 = some ("9" ++ "\n")
      ∧ xdg_read_cache (some (cacheContent 1 "9")) (some 5) 20 = none :=
  ⟨(cache_roundtrip_amended 1 "9" 20 5).1,
   (cache_roundtrip_amended 1 "9" 20 5).2 (by decide) (by decide)⟩

/-- C8: a cache write persists the timestamp as the file's first line and
the value as its second; a directory-creation failure with `EEXIST` is
treated as success, and every other directory-creation failure
propagates to the caller. -/
theorem save_cache_lines_and_mkdir_errors (now : ℕ) (v : String) (e : ℕ) :
    xdg_save_cache none now v = Except.ok (cacheContent now v)
      ∧ xdg_save_cache (some EEXIST) now v = Except.ok (cacheContent now v)
      ∧ (e ≠ EEXIST → xdg_save_cache (some e) now v = Except.error e)
      ∧ splitFirstLine (cacheContent now v) = (natToString now ++ "\n", v ++ "\n") := by
  refine ⟨rfl, rfl, ?_, ?_⟩
  · intro he
    unfold xdg_save_cache ensure_path
    simp [he]
  · rw [splitFirstLine_cacheContent]
    rw [Prod.mk.injEq]
    refine ⟨?_, asString_append_newline v⟩
    apply string_eq_of_data_eq
    rw [string_data_append, natToString_data]
    rfl

/-- Witness for C8: `EACCES` (13) propagates, `EEXIST` is absorbed. -/
theorem save_cache_lines_and_mkdir_errors_witness :
    xdg_save_cache (some 13) 7 "42" = Except.error 13
      ∧ xdg_save_cache (some EEXIST) 7 "42" = Except.ok (cacheContent 7 "42") :=
  ⟨(save_cache_lines_and_mkdir_errors 7 "42" 13).2.2.1 (by decide),
   (save_cache_lines_and_mkdir_errors 7 "42" 13).2.1⟩

/-- C6: a cache read misses — without raising — when the file is absent
or unreadable, when the first line does not parse as a timestamp (then
the default 0 makes the entry stale as soon as the clock is past the
window), and when the entry is stale; and every miss makes the run fall
back to 0 as the `replaces_id` and still succeed. -/
theorem cache_read_failures_absorbed (args lines : List String) (content : String)
    (cache : Option String) (now nid t : ℕ) :
    xdg_read_cache none (some CACHE_TIMEOUT) now = none
      ∧ (parseTimestamp (pyStrip (splitFirstLine content).1) = none → CACHE_TIMEOUT < now →
          xdg_read_cache (some content) (some CACHE_TIMEOUT) now = none)
      ∧ (parseTimestamp (pyStrip (splitFirstLine content).1) = some t →
          t + CACHE_TIMEOUT < now →
          xdg_read_cache (some content) (some CACHE_TIMEOUT) now = none)
      ∧ (xdg_read_cache cache (some CACHE_TIMEOUT) now = none →
          ∃ r : RunResult, runMain args lines 0 cache now nid = Except.ok r
            ∧ r.replaces_id = 0) := by
  refine ⟨rfl, ?_, ?_, ?_⟩
  · intro hp hlt
    simp only [xdg_read_cache]
    unfold as_float_default
    rw [hp]
    simp only [Option.getD_none]
    have hc : CACHE_TIMEOUT ≠ 0 ∧ 0 + CACHE_TIMEOUT < now := by
      refine ⟨by decide, by omega⟩
    simp [hc, hlt]
  · intro hp hlt
    simp only [xdg_read_cache]
    unfold as_float_default
    rw [hp]
    simp only [Option.getD_some]
    have hc : CACHE_TIMEOUT ≠ 0 ∧ t + CACHE_TIMEOUT < now := ⟨by decide, hlt⟩
    simp [hc]
  · intro hread
    obtain ⟨r, hr, hrep, _⟩ :=
      runMain_replaces_id args lines cache now nid 0 (by rw [hread]; rfl)
    exact ⟨r, hr, hrep⟩

/-- Witness for C6: a file with an unparsable first line misses, and the
run falls back to `replaces_id = 0`. -/
theorem cache_read_failures_absorbed_witness :
    xdg_read_cache (some "garbage\n9\n") (some CACHE_TIMEOUT) 100 = none
      ∧ ∃ r : RunResult, runMain [] [] 0 (some "garbage\n9\n") 100 4 = Except.ok r
          ∧ r.replaces_id = 0 := by
  have main := cache_read_failures_absorbed [] [] "garbage\n9\n" (some "garbage\n9\n") 100 4 0
  have h1 := main.2.1 (by decide) (by decide)
  exact ⟨h1, main.2.2.2 h1⟩

/-- C3: when a second run's cache read happens within the staleness
window of a first successful run's write, the second run succeeds and
sends the id returned by the first run's `Notify` call (persisted in the
cache) as its `replaces_id`. -/
theorem rapid_reinvocation_replaces_id (args1 args2 lines1 lines2 : List String)
    (cache0 : Option String) (t1 t2 id1 id2 : ℕ) (r1 : RunResult)
    (h1 : runMain args1 lines1 0 cache0 t1 id1 = Except.ok r1)
    (h2 : t2 ≤ t1 + CACHE_TIMEOUT) :
    ∃ r2 : RunResult, runMain args2 lines2 0 (some r1.newCache) t2 id2 = Except.ok r2
      ∧ r2.replaces_id = id1 := by
  have hc := runMain_ok_newCache args1 lines1 0 cache0 t1 id1 r1 h1
  rw [hc]
  have hread : xdg_read_cache (some (cacheContent t1 (natToString id1))) (some CACHE_TIMEOUT) t2
      = some (natToString id1 ++ "\n") := by
    rw [xdg_read_cacheContent]
    have hns : ¬(CACHE_TIMEOUT ≠ 0 ∧ t1 + CACHE_TIMEOUT < t2) := by
      intro hcontra
      omega
    simp [hns]
  have hor : pyOrDefault (some (natToString id1 ++ "\n")) "0" = natToString id1 ++ "\n" := by
    unfold pyOrDefault
    have hne : ¬(natToString id1 ++ "\n" = "") := by
      intro hh
      have hdata := congrArg String.data hh
      rw [string_data_append, natToString_data] at hdata
      simp at hdata
    simp [hne]
  have hstrip : pyStrip (natToString id1 ++ "\n") = natToString id1 := by
    unfold pyStrip
    apply string_eq_of_data_eq
    show pyStripL ((natToString id1 ++ "\n").data) = _
    rw [string_data_append, natToString_data,
      pyStripL_digits_newline fun c hcm => toDigits_mem_isDigit hcm]
  obtain ⟨r2, hr2, hrep, _⟩ :=
    runMain_replaces_id args2 lines2 (some (cacheContent t1 (natToString id1))) t2 id2 id1
      (by rw [hread, hor, hstrip, pyInt_natToString])
  exact ⟨r2, hr2, hrep⟩

/-- Witness for C3: first run at time 0 with empty cache gets id 3;
second run at time 5 replaces id 3. -/
theorem rapid_reinvocation_replaces_id_witness :
    ∃ r2 : RunResult,
      runMain [] [] 0
          (some (RunResult.mk 0 "Playback" "audio-volume-low" "Volume at 0%" 0 "0\n3\n").newCache)
          5 7 = Except.ok r2
        ∧ r2.replaces_id = 3 :=
  rapid_reinvocation_replaces_id [] [] [] [] none 0 5 3 7
    (RunResult.mk 0 "Playback" "audio-volume-low" "Volume at 0%" 0 "0\n3\n")
    rfl (by decide)
